import Mathlib

/-!
Verification development for the Gerber-to-mesh core of the pcbgen
repository: the command parser (`src/gerber/parse.rs`) and the
outline-to-solid extruder (`src/lib.rs`, `build_edge_cuts_mesh`).

The parser is embedded computably over `ℚ` (Rust `f64` values of decimal
literals are modelled by their exact rational value; the structural
decisions of the parser only depend on parse success, not on rounding).
The outline builder and extruder are embedded over `ℝ`, with Rust's
`f64::atan2` modelled by `Complex.arg` (same four-quadrant convention and
range `(-π, π]`).  Lines are modelled as `List Char`; the Gerber command
sub-language is ASCII, so Rust byte indices coincide with char indices.
-/

namespace Pcbgen

/-- Interpolation modes (`src/gerber/types.rs`, `InterpolationMode`). -/
inductive InterpolationMode
  | linear
  | clockwiseCircular
  | counterClockwiseCircular
deriving DecidableEq

/-- A 2D point (`src/gerber/types.rs`, `Point`), scalar-generic. -/
structure Pt (α : Type) where
  x : α
  y : α
deriving DecidableEq

/-- Aperture shapes (`src/gerber/types.rs`, `Aperture`). -/
inductive Aperture (α : Type)
  | circle (diameter : α)
  | rectangle (width height : α)
deriving DecidableEq

/-- Gerber commands (`src/gerber/types.rs`, `Command`). -/
inductive Command (α : Type)
  | formatSpecification (integerDigits decimalDigits : Nat)
  | setUnitsMM
  | setUnitsInch
  | setInterpolationMode (mode : InterpolationMode)
  | move (point : Pt α)
  | draw (point : Pt α)
  | flash (point : Pt α)
  | arcDraw (endPoint : Pt α) (centerOffset : Pt α)
  | selectAperture (code : Nat)
  | defineAperture (code : Nat) (aperture : Aperture α)
  | beginRegion
  | endRegion
  | endOfFile
deriving DecidableEq

/-- A 3D point (`src/intermediate/model.rs`, `Point3D`). -/
structure Point3D (α : Type) where
  x : α
  y : α
  z : α
deriving DecidableEq

/-- A mesh vertex: position plus normal (`src/intermediate/model.rs`). -/
structure Vertex (α : Type) where
  position : Point3D α
  normal : Point3D α
deriving DecidableEq

/-- A polygonal face: ordered vertex indices (`src/intermediate/model.rs`). -/
structure Face where
  vertices : List Nat
deriving DecidableEq

/-- Board layer classification (`src/intermediate/model.rs`, `LayerType`). -/
inductive LayerType
  | edgeCuts
  | copper
  | silkscreen
deriving DecidableEq

/-- A 3D mesh (`src/intermediate/model.rs`, `Mesh`). -/
structure Mesh (α : Type) where
  vertices : List (Vertex α)
  faces : List Face
  layerType : LayerType
deriving DecidableEq

/-! ### String-level helpers modelling Rust std behaviour -/

/-- Value of a digit string, most significant first (each char assumed
a decimal digit; used after an `isDigit` check, as Rust's `parse` does). -/
def digitsVal (l : List Char) : Nat :=
  l.foldl (fun a c => a * 10 + (c.toNat - 48)) 0

/-- Digit-and-point part of the decimal-literal grammar of Rust's
`str::parse::<f64>`, after the optional sign has been stripped: digits,
at most one point, at least one digit overall. -/
def parseDecimalDigits (neg : Bool) (rest : List Char) : Option ℚ :=
  let intPart := rest.takeWhile Char.isDigit
  let rest2 := rest.dropWhile Char.isDigit
  if rest2.isEmpty then
    if intPart.isEmpty then none
    else some (if neg then -(digitsVal intPart : ℚ) else (digitsVal intPart : ℚ))
  else if rest2.head? = some '.' then
    let fracChars := rest2.tail
    if fracChars.all Char.isDigit && !(intPart.length + fracChars.length == 0) then
      let v : ℚ := (digitsVal intPart : ℚ) + (digitsVal fracChars : ℚ) / 10 ^ fracChars.length
      some (if neg then -v else v)
    else none
  else none

/-- The plain-decimal fragment of Rust std's `str::parse::<f64>`
(optional sign, digits, at most one point), returning the exact rational
value of the literal.  This fragment backs the parser pipeline, whose
structural claims depend only on decode success; the full literal
grammar, including exponent and inf/nan forms, is modelled separately by
`rustParseF64Real` and is what the coordinate-decoder claim is settled
against. -/
def rustParseF64 (s : List Char) : Option ℚ :=
  let neg : Bool := s.head? = some '-'
  let rest := if s.head? = some '-' || s.head? = some '+' then s.drop 1 else s
  parseDecimalDigits neg rest

/-- Modelled from Rust std: `str::parse::<u32>` (optional leading `'+'`,
digits, value below `2^32`). -/
def rustParseU32 (s : List Char) : Option Nat :=
  let rest := if s.head? = some '+' then s.drop 1 else s
  if rest.isEmpty || !rest.all Char.isDigit then none
  else
    let v := digitsVal rest
    if v < 2 ^ 32 then some v else none

/-- Rust `str::strip_prefix` on char lists. -/
def stripPre (pre l : List Char) : Option (List Char) :=
  if pre.isPrefixOf l then some (l.drop pre.length) else none

/-- Rust `str::strip_suffix` on char lists. -/
def stripSuf (suf l : List Char) : Option (List Char) :=
  if suf.isSuffixOf l then some (l.take (l.length - suf.length)) else none

/-- Rust `str::contains(&str)` on char lists: substring occurrence. -/
def containsSub (pat : List Char) : List Char → Bool
  | [] => pat.isEmpty
  | c :: rest => pat.isPrefixOf (c :: rest) || containsSub pat rest

/-- Rust `str::trim` (drop leading and trailing whitespace). -/
def trimL (l : List Char) : List Char :=
  ((l.dropWhile Char.isWhitespace).reverse.dropWhile Char.isWhitespace).reverse

/-- Strip one trailing carriage return, as Rust `str::lines` does. -/
def stripCR (l : List Char) : List Char :=
  if l.getLast? = some '\r' then l.dropLast else l

/-- Rust `str::lines`: split on newline, strip a trailing CR from each
line, and yield no final empty line after a trailing newline. -/
def splitLines (l : List Char) : List (List Char) :=
  if l.isEmpty then []
  else
    let first := l.takeWhile (fun c => !(c == '\n'))
    match h2 : l.dropWhile (fun c => !(c == '\n')) with
    | [] => [stripCR first]
    | _ :: tail => stripCR first :: splitLines tail
termination_by l.length
decreasing_by
  have hle : (List.dropWhile (fun c => !(c == '\n')) l).length ≤ l.length :=
    (List.dropWhile_sublist _).length_le
  rw [h2] at hle
  simp at hle
  omega

/-! ### The parser (`src/gerber/parse.rs`) -/

/-- Mutable context threaded through `parse_gerber`
(`current_x`, `current_y`, `integer_digits`, `decimal_digits`,
`current_interpolation`). -/
structure ParserState where
  x : ℚ
  y : ℚ
  integerDigits : Nat
  decimalDigits : Nat
  mode : InterpolationMode
deriving DecidableEq

/-- Initial parser context of `parse_gerber`. -/
def initParserState : ParserState :=
  { x := 0, y := 0, integerDigits := 2, decimalDigits := 4, mode := .linear }

/-- `parse_format_spec`: a line `%FSLAX<D><D>Y...*%` yields the two digit
counts of the X field. -/
def parse_format_spec (input : List Char) : Option (Nat × Nat) :=
  match stripPre ['%', 'F', 'S', 'L', 'A', 'X'] input with
  | none => none
  | some f1 =>
    match stripSuf ['*', '%'] f1 with
    | none => none
    | some f2 =>
      match List.findIdx? (fun c => c == 'Y') f2 with
      | none => none
      | some pos =>
        match f2.take pos with
        | [c1, c2] =>
            if c1.isDigit && c2.isDigit then some (c1.toNat - 48, c2.toNat - 48)
            else none
        | _ => none

/-- `parse_units_mm`: nom `tag` matches a prefix. -/
def parse_units_mm (input : List Char) : Option (Command ℚ) :=
  if List.isPrefixOf ['%', 'M', 'O', 'M', 'M', '*', '%'] input then some .setUnitsMM else none

/-- `parse_units_inch`: nom `tag` matches a prefix. -/
def parse_units_inch (input : List Char) : Option (Command ℚ) :=
  if List.isPrefixOf ['%', 'M', 'O', 'I', 'N', '*', '%'] input then some .setUnitsInch else none

/-- `parse_aperture_definition`: `%ADD<code>C,<diameter>*%` or
`%ADD<code>R,<width>X<height>*%`; the circle attempt is made first and
falls through to the rectangle attempt on any failure. -/
def parse_aperture_definition (input : List Char) : Option (Command ℚ) :=
  match stripPre ['%', 'A', 'D', 'D'] input with
  | none => none
  | some d1 =>
    match stripSuf ['*', '%'] d1 with
    | none => none
    | some ad =>
      let circ : Option (Command ℚ) :=
        match List.findIdx? (fun c => c == 'C') ad with
        | none => none
        | some pos =>
          let codeStr := ad.take pos
          let paramsStr := ad.drop (pos + 1)
          match rustParseU32 codeStr with
          | none => none
          | some code =>
            match paramsStr with
            | ',' :: diameterStr =>
              match rustParseF64 diameterStr with
              | some diameter => some (.defineAperture code (.circle diameter))
              | none => none
            | _ => none
      let rect : Option (Command ℚ) :=
        match List.findIdx? (fun c => c == 'R') ad with
        | none => none
        | some pos =>
          let codeStr := ad.take pos
          let paramsStr := ad.drop (pos + 1)
          match rustParseU32 codeStr with
          | none => none
          | some code =>
            match paramsStr with
            | ',' :: params =>
              match List.findIdx? (fun c => c == 'X') params with
              | none => none
              | some xPos =>
                let widthStr := params.take xPos
                let heightStr := params.drop (xPos + 1)
                match rustParseF64 widthStr, rustParseF64 heightStr with
                | some width, some height =>
                    some (.defineAperture code (.rectangle width height))
                | _, _ => none
            | _ => none
      match circ with
      | some c => some c
      | none => rect

/-- `parse_interpolation_mode`: nom `alt` over the tags G01, G02, G03. -/
def parse_interpolation_mode (input : List Char) : Option InterpolationMode :=
  if List.isPrefixOf ['G', '0', '1'] input then some .linear
  else if List.isPrefixOf ['G', '0', '2'] input then some .clockwiseCircular
  else if List.isPrefixOf ['G', '0', '3'] input then some .counterClockwiseCircular
  else none

/-- `parse_begin_region`: tag G36. -/
def parse_begin_region (input : List Char) : Option (Command ℚ) :=
  if List.isPrefixOf ['G', '3', '6'] input then some .beginRegion else none

/-- `parse_end_region`: tag G37. -/
def parse_end_region (input : List Char) : Option (Command ℚ) :=
  if List.isPrefixOf ['G', '3', '7'] input then some .endRegion else none

/-- `parse_end_of_file`: tag M02. -/
def parse_end_of_file (input : List Char) : Option (Command ℚ) :=
  if List.isPrefixOf ['M', '0', '2'] input then some .endOfFile else none

/-- `parse_aperture_selection`: a line `D<code>*` with `code >= 10`. -/
def parse_aperture_selection (input : List Char) : Option (Command ℚ) :=
  if input.head? = some 'D' && input.getLast? = some '*' then
    let codeStr := (input.drop 1).take (input.length - 2)
    match rustParseU32 codeStr with
    | some code => if 10 ≤ code then some (.selectAperture code) else none
    | none => none
  else none

/-- `parse_coordinate`: decode a coordinate token under the current
format; tokens with a decimal point parse directly, others are
zero-padded fixed-point integers. -/
def parse_coordinate (coordStr : List Char) (integerDigits decimalDigits : Nat) :
    Except String ℚ :=
  if coordStr.contains '.' then
    match rustParseF64 coordStr with
    | some v => .ok v
    | none => .error ("Invalid coordinate: " ++ coordStr.asString)
  else
    let totalDigits := integerDigits + decimalDigits
    let isNegative : Bool := coordStr.head? = some '-'
    let magnitude := if isNegative then coordStr.drop 1 else coordStr
    let padded := List.replicate (totalDigits - magnitude.length) '0' ++ magnitude
    let withPoint :=
      if 0 < decimalDigits then
        let decimalPos := padded.length - decimalDigits
        padded.take decimalPos ++ '.' :: padded.drop decimalPos
      else padded
    let signed := if isNegative then '-' :: withPoint else withPoint
    match rustParseF64 signed with
    | some v => .ok v
    | none => .error ("Invalid coordinate: " ++ coordStr.asString)

/-- `find_next_letter`: first position at or after `start` holding one of
`X Y I J D *`, or the end of the line. -/
def find_next_letter (input : List Char) (start : Nat) : Nat :=
  match List.findIdx?
      (fun c => c == 'X' || c == 'Y' || c == 'I' || c == 'J' || c == 'D' || c == '*')
      (input.drop start) with
  | some i => start + i
  | none => input.length

/-- One X/Y/I/J block of `parse_draw_command`: find the letter, slice up
to the next field letter, decode with the current format; `none` when the
letter is absent or the decode fails. -/
def coordField (input : List Char) (letter : Char) (integerDigits decimalDigits : Nat) :
    Option ℚ :=
  match List.findIdx? (fun c => c == letter) input with
  | none => none
  | some pos =>
    let e := find_next_letter input (pos + 1)
    let str := (input.drop (pos + 1)).take (e - (pos + 1))
    match parse_coordinate str integerDigits decimalDigits with
    | .ok v => some v
    | .error _ => none

/-- `parse_draw_command`: extract X/Y/I/J fields from a `*`-terminated
line, update the current position from X/Y, then classify by the embedded
D operation code.  Returns the updated state together with the emitted
command (or `none`).  A line not ending in `*` leaves the state
untouched. -/
def parse_draw_command (input : List Char) (st : ParserState) :
    ParserState × Option (Command ℚ) :=
  if input.getLast? = some '*' then
    let xv := coordField input 'X' st.integerDigits st.decimalDigits
    let yv := coordField input 'Y' st.integerDigits st.decimalDigits
    let iv := coordField input 'I' st.integerDigits st.decimalDigits
    let jv := coordField input 'J' st.integerDigits st.decimalDigits
    let newX := xv.getD st.x
    let newY := yv.getD st.y
    let st' := { st with x := newX, y := newY }
    if containsSub ['D', '0', '1'] input || containsSub ['D', '1'] input then
      if (st.mode matches .clockwiseCircular | .counterClockwiseCircular)
          && iv.isSome && jv.isSome then
        (st', some (.arcDraw { x := newX, y := newY } { x := iv.getD 0, y := jv.getD 0 }))
      else
        (st', some (.draw { x := newX, y := newY }))
    else if containsSub ['D', '0', '2'] input || containsSub ['D', '2'] input then
      (st', some (.move { x := newX, y := newY }))
    else if containsSub ['D', '0', '3'] input || containsSub ['D', '3'] input then
      (st', some (.flash { x := newX, y := newY }))
    else
      (st', none)
  else (st, none)

/-- The recognizer chain of `parse_gerber`, applied to one trimmed,
non-blank, non-comment line: first match wins. -/
def parseGerberLine (st : ParserState) (line : List Char) :
    ParserState × Option (Command ℚ) :=
  match parse_format_spec line with
  | some (intD, decD) =>
      ({ st with integerDigits := intD, decimalDigits := decD },
       some (.formatSpecification intD decD))
  | none =>
  match parse_units_mm line with
  | some c => (st, some c)
  | none =>
  match parse_units_inch line with
  | some c => (st, some c)
  | none =>
  match parse_aperture_definition line with
  | some c => (st, some c)
  | none =>
  match parse_interpolation_mode line with
  | some m => ({ st with mode := m }, some (.setInterpolationMode m))
  | none =>
  match parse_begin_region line with
  | some c => (st, some c)
  | none =>
  match parse_end_region line with
  | some c => (st, some c)
  | none =>
  match parse_end_of_file line with
  | some c => (st, some c)
  | none =>
  match parse_aperture_selection line with
  | some c => (st, some c)
  | none => parse_draw_command line st

/-- One raw line of `parse_gerber`: trim, skip blank lines and G04
comments, otherwise run the recognizer chain. -/
def processGerberLine (st : ParserState) (rawLine : List Char) :
    ParserState × Option (Command ℚ) :=
  let line := trimL rawLine
  if line.isEmpty || List.isPrefixOf ['G', '0', '4'] line then (st, none)
  else parseGerberLine st line

/-- `parse_gerber`: fold every line through the recognizer chain,
accumulating the emitted commands; the function always reaches
`Ok(commands)`. -/
def parse_gerber (content : List Char) : Except String (List (Command ℚ)) :=
  let result :=
    (splitLines content).foldl
      (fun (acc : ParserState × List (Command ℚ)) line =>
        let (st', c) := processGerberLine acc.1 line
        match c with
        | some cmd => (st', acc.2 ++ [cmd])
        | none => (st', acc.2))
      (initParserState, [])
  .ok result.2

/-! ### Specification-side decoder (claim C6) -/

/-- Modelled from the spec's words for the coordinate decoder: if the
token contains a decimal separator, parse directly; otherwise strip an
optional leading minus sign, left-pad with zeros to
`integer_digits + decimal_digits` characters, insert a decimal point
`decimal_digits` characters from the right (unconditionally), restore
the sign, and parse. -/
def decodeSpec (coordStr : List Char) (integerDigits decimalDigits : Nat) : Option ℚ :=
  if coordStr.contains '.' then rustParseF64 coordStr
  else
    let isNegative : Bool := coordStr.head? = some '-'
    let magnitude := if isNegative then coordStr.drop 1 else coordStr
    let padded :=
      List.replicate (integerDigits + decimalDigits - magnitude.length) '0' ++ magnitude
    let decimalPos := padded.length - decimalDigits
    let withPoint := padded.take decimalPos ++ '.' :: padded.drop decimalPos
    rustParseF64 (if isNegative then '-' :: withPoint else withPoint)

/-! ### Full-fidelity float model for the coordinate-decoder claim (C6) -/

/-- The value domain of Rust's `f64` parse at literal level: finite
literals carry their exact rational value; infinities and NaN are
separate outcomes. -/
inductive RustFloat
  | finite (val : ℚ)
  | inf
  | negInf
  | nan
deriving DecidableEq

/-- The `Number` production of Rust std's float grammar, after the
optional leading sign has been stripped:
`Count '.'? Count? Exp?` or `'.' Count Exp?`, with
`Exp ::= (e|E) Sign? Count`.  The value is the exact rational
`mantissa * 10 ^ exponent`. -/
def parseNumberCore (neg : Bool) (rest : List Char) : Option RustFloat :=
  let intPart := rest.takeWhile Char.isDigit
  let rest2 := rest.dropWhile Char.isDigit
  let frac := if rest2.head? = some '.' then rest2.tail.takeWhile Char.isDigit else []
  let rest3 := if rest2.head? = some '.' then rest2.tail.dropWhile Char.isDigit else rest2
  let mantOK : Bool :=
    if intPart.isEmpty then decide (rest2.head? = some '.') && !frac.isEmpty else true
  let mantVal : ℚ := (digitsVal intPart : ℚ) + (digitsVal frac : ℚ) / 10 ^ frac.length
  if rest3.isEmpty then
    if mantOK then some (.finite (if neg then -mantVal else mantVal)) else none
  else if rest3.head? = some 'e' || rest3.head? = some 'E' then
    let erest := rest3.tail
    let eneg : Bool := erest.head? = some '-'
    let erest2 :=
      if erest.head? = some '-' || erest.head? = some '+' then erest.drop 1 else erest
    if mantOK && !erest2.isEmpty && erest2.all Char.isDigit then
      let ev : ℤ := if eneg then -(digitsVal erest2 : ℤ) else (digitsVal erest2 : ℤ)
      some (.finite (if neg then -(mantVal * (10 : ℚ) ^ ev) else mantVal * (10 : ℚ) ^ ev))
    else none
  else none

/-- Modelled from Rust std: the full literal grammar of
`str::parse::<f64>`: optional sign, then a case-insensitive `inf`,
`infinity` or `nan`, or a decimal number with optional point and
optional exponent.  Finite values are exact rationals (the real parser
rounds them to the nearest `f64`, a float-level concern the claims do
not touch). -/
def rustParseF64Real (s : List Char) : Option RustFloat :=
  let neg : Bool := s.head? = some '-'
  let rest := if s.head? = some '-' || s.head? = some '+' then s.drop 1 else s
  let low := rest.map Char.toLower
  if low = ['i', 'n', 'f'] || low = ['i', 'n', 'f', 'i', 'n', 'i', 't', 'y'] then
    some (if neg then .negInf else .inf)
  else if low = ['n', 'a', 'n'] then some .nan
  else parseNumberCore neg rest

/-- `parse_coordinate` at full float-grammar fidelity: the same
source algorithm (direct parse on a token with a point; otherwise strip
the sign, zero-pad, insert the point only when `decimal_digits > 0`,
restore the sign, parse), with the parse calls modelled by
`rustParseF64Real`. -/
def parse_coordinate_real (coordStr : List Char) (integerDigits decimalDigits : Nat) :
    Except String RustFloat :=
  if coordStr.contains '.' then
    match rustParseF64Real coordStr with
    | some v => .ok v
    | none => .error ("Invalid coordinate: " ++ coordStr.asString)
  else
    let totalDigits := integerDigits + decimalDigits
    let isNegative : Bool := coordStr.head? = some '-'
    let magnitude := if isNegative then coordStr.drop 1 else coordStr
    let padded := List.replicate (totalDigits - magnitude.length) '0' ++ magnitude
    let withPoint :=
      if 0 < decimalDigits then
        let decimalPos := padded.length - decimalDigits
        padded.take decimalPos ++ '.' :: padded.drop decimalPos
      else padded
    let signed := if isNegative then '-' :: withPoint else withPoint
    match rustParseF64Real signed with
    | some v => .ok v
    | none => .error ("Invalid coordinate: " ++ coordStr.asString)

/-- Modelled from the spec's words for the coordinate decoder, at full
float-grammar fidelity: parse directly when a decimal separator is
present; otherwise strip an optional leading minus sign, left-pad with
zeros to `integer_digits + decimal_digits` characters, insert a decimal
point `decimal_digits` characters from the right (unconditionally),
restore the sign, and parse. -/
def decodeSpecReal (coordStr : List Char) (integerDigits decimalDigits : Nat) :
    Option RustFloat :=
  if coordStr.contains '.' then rustParseF64Real coordStr
  else
    let isNegative : Bool := coordStr.head? = some '-'
    let magnitude := if isNegative then coordStr.drop 1 else coordStr
    let padded :=
      List.replicate (integerDigits + decimalDigits - magnitude.length) '0' ++ magnitude
    let decimalPos := padded.length - decimalDigits
    let withPoint := padded.take decimalPos ++ '.' :: padded.drop decimalPos
    rustParseF64Real (if isNegative then '-' :: withPoint else withPoint)

/-! ### The outline builder and extruder (`src/lib.rs`, `build_edge_cuts_mesh`) -/

open Classical in
/-- Rust `f64::atan2` modelled on the reals: `atan2 y x` is the argument
of the complex number `x + y i`, with range `(-π, π]` and
`atan2 0 0 = 0`, matching the Rust convention. -/
noncomputable def atan2 (y x : ℝ) : ℝ :=
  Complex.arg { re := x, im := y }

/-- Traversal state of the first pass of `build_edge_cuts_mesh`:
accumulated outline points, current position, tracked interpolation
mode, and the captured start point. -/
structure OutlineState where
  points : List (Pt ℝ)
  x : ℝ
  y : ℝ
  mode : InterpolationMode
  startPoint : Option (Pt ℝ)

/-- Initial traversal state of `build_edge_cuts_mesh`. -/
def initOutlineState : OutlineState :=
  { points := [], x := 0, y := 0, mode := .linear, startPoint := none }

/-- Number of points used to approximate one arc (`POINTS_PER_ARC`). -/
def POINTS_PER_ARC : Nat := 16

open Classical in
/-- One command of the first pass of `build_edge_cuts_mesh`: `Move`
records (and possibly anchors) the point, `Draw` appends it, `ArcDraw`
tessellates the arc into `POINTS_PER_ARC` points with a mode-dependent
direction correction, `SetInterpolationMode` updates the tracked mode,
and every other command is ignored. -/
noncomputable def outlineStep (st : OutlineState) (cmd : Command ℝ) : OutlineState :=
  match cmd with
  | .move p =>
      { st with
        x := p.x, y := p.y,
        startPoint := match st.startPoint with
          | none => some { x := p.x, y := p.y }
          | some s => some s,
        points := st.points ++ [{ x := p.x, y := p.y }] }
  | .draw p =>
      { st with x := p.x, y := p.y, points := st.points ++ [{ x := p.x, y := p.y }] }
  | .arcDraw endPoint centerOffset =>
      let startX := st.x
      let startY := st.y
      let endX := endPoint.x
      let endY := endPoint.y
      let centerX := startX + centerOffset.x
      let centerY := startY + centerOffset.y
      let startAngle := atan2 (startY - centerY) (startX - centerX)
      let endAngle := atan2 (endY - centerY) (endX - centerX)
      let radius := Real.sqrt ((startX - centerX) ^ 2 + (startY - centerY) ^ 2)
      let rawDiff := endAngle - startAngle
      let angleDiff :=
        match st.mode with
        | .clockwiseCircular => if 0 < rawDiff then rawDiff - 2 * Real.pi else rawDiff
        | .counterClockwiseCircular => if rawDiff < 0 then rawDiff + 2 * Real.pi else rawDiff
        | _ => rawDiff
      let newPoints := (List.range POINTS_PER_ARC).map fun i =>
        let angle := startAngle + angleDiff * (((i + 1 : Nat) : ℝ) / (POINTS_PER_ARC : ℝ))
        ({ x := centerX + radius * Real.cos angle,
           y := centerY + radius * Real.sin angle } : Pt ℝ)
      { st with points := st.points ++ newPoints, x := endX, y := endY }
  | .setInterpolationMode mode => { st with mode := mode }
  | _ => st

/-- The whole first pass of `build_edge_cuts_mesh` over a command list. -/
noncomputable def collectOutline (cmds : List (Command ℝ)) : OutlineState :=
  cmds.foldl outlineStep initOutlineState

open Classical in
/-- Closure step of `build_edge_cuts_mesh`: if a start point was
captured and the last accumulated point differs from it in either
coordinate, append the start point. -/
noncomputable def closeOutline (st : OutlineState) : List (Pt ℝ) :=
  match st.startPoint, st.points.getLast? with
  | some s, some l =>
      if s.x ≠ l.x ∨ s.y ≠ l.y then st.points ++ [s] else st.points
  | _, _ => st.points

/-- Extrusion step of `build_edge_cuts_mesh`: two vertices per outline
point (top at `z = thickness` with normal `+z`, bottom at `z = 0` with
normal `-z`), then one top face over the even indices, one bottom face
over the odd indices in reverse order, and one side quad per consecutive
point pair. -/
def extrudeOutline (outlinePoints : List (Pt ℝ)) (pcbThickness : ℝ) : Mesh ℝ :=
  let vertices := outlinePoints.flatMap fun point =>
    [{ position := { x := point.x, y := point.y, z := pcbThickness },
       normal := { x := 0, y := 0, z := 1 } },
     { position := { x := point.x, y := point.y, z := 0 },
       normal := { x := 0, y := 0, z := -1 } }]
  let numPoints := outlinePoints.length
  let topFace : Face := { vertices := (List.range numPoints).map fun i => i * 2 }
  let bottomFace : Face :=
    { vertices := (List.range numPoints).reverse.map fun i => i * 2 + 1 }
  let sideFaces := (List.range numPoints).map fun i =>
    let nextI := (i + 1) % numPoints
    ({ vertices := [i * 2, i * 2 + 1, nextI * 2 + 1, nextI * 2] } : Face)
  { vertices := vertices,
    faces := topFace :: bottomFace :: sideFaces,
    layerType := .edgeCuts }

/-- `build_edge_cuts_mesh`: collect the outline, close it, reject
outlines of fewer than three points, and extrude the rest into a mesh
of the given thickness (default 1.6). -/
noncomputable def build_edge_cuts_mesh (cmds : List (Command ℝ)) (thickness : Option ℝ) :
    Except String (Mesh ℝ) :=
  let pcbThickness := thickness.getD 1.6
  let outlinePoints := closeOutline (collectOutline cmds)
  if outlinePoints.length < 3 then
    .error ("Not enough points to create a valid mesh")
  else
    .ok (extrudeOutline outlinePoints pcbThickness)

/-! ### Specification-side descriptions for the arc claims (C2, C10) -/

/-- Arc center as the claim states it: current point plus center offset. -/
def arcCenter (p off : Pt ℝ) : Pt ℝ :=
  { x := p.x + off.x, y := p.y + off.y }

/-- Arc radius as the claim states it: the distance from the current
point to the center. -/
noncomputable def arcRadius (p c : Pt ℝ) : ℝ :=
  Real.sqrt ((p.x - c.x) ^ 2 + (p.y - c.y) ^ 2)

/-- Raw angular sweep as the claim states it: end angle minus start
angle, both measured from the center. -/
noncomputable def rawArcDelta (p e off : Pt ℝ) : ℝ :=
  atan2 (e.y - (arcCenter p off).y) (e.x - (arcCenter p off).x) -
    atan2 (p.y - (arcCenter p off).y) (p.x - (arcCenter p off).x)

/-- The sixteen tessellated arc points as the claim states them: the
k-th point (k = 1..16) sits at angle `start_angle + delta * k/16` on the
circle of the computed center and radius. -/
noncomputable def specArcTess (p off : Pt ℝ) (delta : ℝ) : List (Pt ℝ) :=
  (List.range 16).map fun k =>
    let c := arcCenter p off
    let angle := atan2 (p.y - c.y) (p.x - c.x) + delta * (((k + 1 : Nat) : ℝ) / 16)
    ({ x := c.x + arcRadius p c * Real.cos angle,
       y := c.y + arcRadius p c * Real.sin angle } : Pt ℝ)

/-! ### Helpers for the outline counting claims (C4, C5) -/

/-- Is a command a `Move` or a `Draw`?  These are exactly the commands
that contribute one outline point each. -/
def isMoveOrDraw : Command ℝ → Bool
  | .move _ => true
  | .draw _ => true
  | _ => false

/-- Is a command an `ArcDraw`? -/
def isArcDraw : Command ℝ → Bool
  | .arcDraw _ _ => true
  | _ => false

/-- Number of `Move` and `Draw` commands in a sequence. -/
def countMoveDraw (cmds : List (Command ℝ)) : Nat :=
  cmds.countP isMoveOrDraw

/-- The point of the first `Move` command of a sequence, if any:
the outline's anchor. -/
def firstMovePt? (cmds : List (Command ℝ)) : Option (Pt ℝ) :=
  cmds.findSome? fun c =>
    match c with
    | .move p => some p
    | _ => none

/-! ## Theorems -/

/-- Appending a decimal point to a point-free token does not change the
value (or failure) produced by the decimal-literal grammar. -/
theorem takeWhile_digit_append_dot (v : List Char) :
    List.takeWhile Char.isDigit (v ++ ['.']) = List.takeWhile Char.isDigit v ∧
      List.dropWhile Char.isDigit (v ++ ['.']) = List.dropWhile Char.isDigit v ++ ['.'] := by
  induction v with
  | nil => exact ⟨rfl, rfl⟩
  | cons c t ih =>
    by_cases hc : c.isDigit = true
    · simp [List.takeWhile_cons, List.dropWhile_cons, hc, ih.1, ih.2]
    · simp [List.takeWhile_cons, List.dropWhile_cons, hc]

theorem parseDecimalDigits_append_dot (neg : Bool) (u : List Char) (h : '.' ∉ u) :
    parseDecimalDigits neg (u ++ ['.']) = parseDecimalDigits neg u := by
  have hsplit := List.takeWhile_append_dropWhile (p := Char.isDigit) (l := u)
  simp only [parseDecimalDigits, (takeWhile_digit_append_dot u).1,
    (takeWhile_digit_append_dot u).2]
  by_cases hall : u.dropWhile Char.isDigit = []
  · have htw : u.takeWhile Char.isDigit = u := by
      rw [hall, List.append_nil] at hsplit
      exact hsplit
    rw [hall, htw, List.nil_append]
    have hdv : (digitsVal [] : ℚ) = 0 := rfl
    by_cases hu : u = []
    · subst hu
      simp
    · have hulen : ¬ u.length = 0 := by
        simpa [List.length_eq_zero] using hu
      simp [hu, hulen, hdv]
  · rcases hw : u.dropWhile Char.isDigit with _ | ⟨d, w⟩
    · exact absurd hw hall
    · have hdmem : d ∈ List.dropWhile Char.isDigit u := by
        rw [hw]
        exact List.mem_cons_self d w
      have hd' : d ≠ '.' := fun he =>
        h (he ▸ ((List.dropWhile_sublist Char.isDigit).subset hdmem))
      simp [hd']

/-- Appending a decimal point to a point-free token does not change the
result of the modelled float parse. -/
theorem rustParseF64_append_dot (s : List Char) (h : '.' ∉ s) :
    rustParseF64 (s ++ ['.']) = rustParseF64 s := by
  rcases s with refl | ⟨c, t⟩
  · rfl
  · have ht : '.' ∉ t := fun hm => h (List.mem_cons_of_mem _ hm)
    simp only [rustParseF64, List.cons_append, List.head?_cons, List.drop_succ_cons,
      List.drop_zero]
    by_cases hcond : (decide (some c = some '-') || decide (some c = some '+')) = true
    · simp only [hcond, if_true]
      exact parseDecimalDigits_append_dot _ t ht
    · simp only [Bool.not_eq_true] at hcond
      simp only [hcond, Bool.false_eq_true, if_false]
      exact parseDecimalDigits_append_dot _ (c :: t) h

/-- Within the plain-decimal fragment of the float grammar, the decoder
agrees with the spec's unconditional-insertion description on every
token and format: there the code's skipped insertion at
`decimal_digits = 0` is value-preserving.  The full-grammar claim is
settled by `parse_coordinate_real_eq_decodeSpec` and its
counterexample. -/
theorem parse_coordinate_eq_decodeSpec (coordStr : List Char)
    (integerDigits decimalDigits : Nat) :
    (parse_coordinate coordStr integerDigits decimalDigits).toOption =
      decodeSpec coordStr integerDigits decimalDigits := by
  by_cases hdot : coordStr.contains '.' = true
  · simp only [parse_coordinate, decodeSpec, hdot, if_true]
    cases hf : rustParseF64 coordStr <;> simp [Except.toOption]
  · simp only [Bool.not_eq_true] at hdot
    have hmem : '.' ∉ coordStr := by
      intro hm
      rw [show coordStr.contains '.' = coordStr.elem '.' from rfl] at hdot
      rw [List.elem_eq_true_of_mem hm] at hdot
      exact Bool.true_eq_false.mp hdot
    simp only [parse_coordinate, decodeSpec, hdot, Bool.false_eq_true, if_false]
    set isNegative : Bool := decide (coordStr.head? = some '-') with hneg
    set magnitude := if isNegative then coordStr.drop 1 else coordStr with hmag
    have hmagMem : '.' ∉ magnitude := by
      rw [hmag]
      rcases isNegative with _ | _
      · simpa using hmem
      · intro hm
        exact hmem ((List.drop_sublist 1 coordStr).subset (by simpa using hm))
    set padded :=
      List.replicate (integerDigits + decimalDigits - magnitude.length) '0' ++ magnitude
      with hpad
    have hpadMem : '.' ∉ padded := by
      rw [hpad]
      intro hm
      rcases List.mem_append.mp hm with hz | hmg
      · exact absurd (List.eq_of_mem_replicate hz) (by decide)
      · exact hmagMem hmg
    rcases hdd : decimalDigits with refl | ⟨d'⟩
    · have htake : padded.take (padded.length - 0) = padded := by
        simp [List.take_length]
      have hdrop : padded.drop (padded.length - 0) = [] := by
        simp [List.drop_length]
      simp only [Nat.lt_irrefl, if_false, htake, hdrop]
      have hsigned :
          (if isNegative then '-' :: (padded ++ ['.']) else padded ++ ['.']) =
            (if isNegative then '-' :: padded else padded) ++ ['.'] := by
        rcases isNegative with _ | _ <;> simp
      have hsignedMem : '.' ∉ (if isNegative then '-' :: padded else padded) := by
        rcases isNegative with _ | _
        · simpa using hpadMem
        · intro hm
          rcases List.mem_cons.mp hm with he | hm2
          · exact absurd he (by decide)
          · exact hpadMem hm2
      rw [hsigned, rustParseF64_append_dot _ hsignedMem]
      cases hf : rustParseF64 (if isNegative then '-' :: padded else padded) <;>
        simp [Except.toOption]
    · simp only [Nat.succ_pos, if_true]
      cases hf :
          rustParseF64
            (if isNegative then
              '-' :: (padded.take (padded.length - (d' + 1)) ++
                '.' :: padded.drop (padded.length - (d' + 1)))
            else
              padded.take (padded.length - (d' + 1)) ++
                '.' :: padded.drop (padded.length - (d' + 1))) <;>
        simp [Except.toOption]

/-- A lower-cased list headed by `i` or `n` cannot arise from a list
whose characters lower to neither. -/
theorem map_toLower_ne_of_head (w pat : List Char)
    (hw : ∀ c ∈ w, Char.toLower c ≠ 'i' ∧ Char.toLower c ≠ 'n')
    (hpat : pat.head? = some 'i' ∨ pat.head? = some 'n') :
    w.map Char.toLower ≠ pat := by
  intro heq
  cases w with
  | nil =>
    rw [← heq] at hpat
    simp at hpat
  | cons c t =>
    rw [← heq] at hpat
    simp only [List.map_cons, List.head?_cons, Option.some_inj] at hpat
    rcases hpat with h | h
    · exact (hw c (List.mem_cons_self c t)).1 h
    · exact (hw c (List.mem_cons_self c t)).2 h

/-- Appending a decimal point to a token with no point and no exponent
marker does not change the outcome of the `Number` production. -/
theorem parseNumberCore_append_dot (neg : Bool) (u : List Char)
    (hdot : '.' ∉ u) (he : ∀ c ∈ u, c ≠ 'e' ∧ c ≠ 'E') :
    parseNumberCore neg (u ++ ['.']) = parseNumberCore neg u := by
  simp only [parseNumberCore, (takeWhile_digit_append_dot u).1,
    (takeWhile_digit_append_dot u).2]
  by_cases hall : u.dropWhile Char.isDigit = []
  · rw [hall, List.nil_append]
    by_cases hint : (u.takeWhile Char.isDigit).isEmpty = true <;> simp [hint]
  · rcases hw : u.dropWhile Char.isDigit with _ | ⟨d, w⟩
    · exact absurd hw hall
    · have hdmem : d ∈ u := (List.dropWhile_sublist Char.isDigit).subset
        (by rw [hw]; exact List.mem_cons_self d w)
      have hd1 : d ≠ '.' := fun hh => hdot (hh ▸ hdmem)
      have hd2 : d ≠ 'e' := (he d hdmem).1
      have hd3 : d ≠ 'E' := (he d hdmem).2
      simp [hd1, hd2, hd3]

/-- Appending a decimal point to a point-free token that is free of
exponent markers and of inf/nan spellings does not change the result of
the full-grammar float parse. -/
theorem rustParseF64Real_append_dot (s : List Char) (hdot : '.' ∉ s)
    (hplain : ∀ c ∈ s, Char.toLower c ≠ 'i' ∧ Char.toLower c ≠ 'n' ∧ c ≠ 'e' ∧ c ≠ 'E') :
    rustParseF64Real (s ++ ['.']) = rustParseF64Real s := by
  have hdotfacts : Char.toLower '.' ≠ 'i' ∧ Char.toLower '.' ≠ 'n' := by decide
  rcases s with _ | ⟨c, t⟩
  · rfl
  · have htdot : '.' ∉ t := fun hm => hdot (List.mem_cons_of_mem _ hm)
    have htplain : ∀ x ∈ t, Char.toLower x ≠ 'i' ∧ Char.toLower x ≠ 'n' ∧ x ≠ 'e' ∧ x ≠ 'E' :=
      fun x hx => hplain x (List.mem_cons_of_mem _ hx)
    simp only [rustParseF64Real, List.cons_append, List.head?_cons, List.drop_succ_cons,
      List.drop_zero]
    by_cases hcond : (decide (some c = some '-') || decide (some c = some '+')) = true
    · simp only [hcond, if_true]
      have hwt : ∀ x ∈ t, Char.toLower x ≠ 'i' ∧ Char.toLower x ≠ 'n' :=
        fun x hx => ⟨(htplain x hx).1, (htplain x hx).2.1⟩
      have hwt2 : ∀ x ∈ t ++ ['.'], Char.toLower x ≠ 'i' ∧ Char.toLower x ≠ 'n' := by
        intro x hx
        rcases List.mem_append.mp hx with hx1 | hx2
        · exact hwt x hx1
        · rw [List.mem_singleton.mp hx2]
          exact hdotfacts
      have g1 := map_toLower_ne_of_head (t ++ ['.']) ['i', 'n', 'f'] hwt2 (Or.inl rfl)
      have g2 := map_toLower_ne_of_head (t ++ ['.'])
        ['i', 'n', 'f', 'i', 'n', 'i', 't', 'y'] hwt2 (Or.inl rfl)
      have g3 := map_toLower_ne_of_head (t ++ ['.']) ['n', 'a', 'n'] hwt2 (Or.inr rfl)
      have g4 := map_toLower_ne_of_head t ['i', 'n', 'f'] hwt (Or.inl rfl)
      have g5 := map_toLower_ne_of_head t
        ['i', 'n', 'f', 'i', 'n', 'i', 't', 'y'] hwt (Or.inl rfl)
      have g6 := map_toLower_ne_of_head t ['n', 'a', 'n'] hwt (Or.inr rfl)
      simp only [g1, g2, g3, g4, g5, g6, or_self, if_false, Bool.false_eq_true]
      have het : ∀ x ∈ t, x ≠ 'e' ∧ x ≠ 'E' :=
        fun x hx => ⟨(htplain x hx).2.2.1, (htplain x hx).2.2.2⟩
      simpa using parseNumberCore_append_dot _ t htdot het
    · simp only [Bool.not_eq_true] at hcond
      simp only [hcond, Bool.false_eq_true, if_false]
      have hwct : ∀ x ∈ c :: t, Char.toLower x ≠ 'i' ∧ Char.toLower x ≠ 'n' :=
        fun x hx => ⟨(hplain x hx).1, (hplain x hx).2.1⟩
      have hwct2 : ∀ x ∈ (c :: t) ++ ['.'], Char.toLower x ≠ 'i' ∧ Char.toLower x ≠ 'n' := by
        intro x hx
        rcases List.mem_append.mp hx with hx1 | hx2
        · exact hwct x hx1
        · rw [List.mem_singleton.mp hx2]
          exact hdotfacts
      have g1 := map_toLower_ne_of_head ((c :: t) ++ ['.']) ['i', 'n', 'f'] hwct2 (Or.inl rfl)
      have g2 := map_toLower_ne_of_head ((c :: t) ++ ['.'])
        ['i', 'n', 'f', 'i', 'n', 'i', 't', 'y'] hwct2 (Or.inl rfl)
      have g3 := map_toLower_ne_of_head ((c :: t) ++ ['.']) ['n', 'a', 'n'] hwct2 (Or.inr rfl)
      have g4 := map_toLower_ne_of_head (c :: t) ['i', 'n', 'f'] hwct (Or.inl rfl)
      have g5 := map_toLower_ne_of_head (c :: t)
        ['i', 'n', 'f', 'i', 'n', 'i', 't', 'y'] hwct (Or.inl rfl)
      have g6 := map_toLower_ne_of_head (c :: t) ['n', 'a', 'n'] hwct (Or.inr rfl)
      simp only [List.cons_append] at g1 g2 g3
      simp only [g1, g2, g3, g4, g5, g6, or_self, if_false, Bool.false_eq_true]
      have hec : ∀ x ∈ c :: t, x ≠ 'e' ∧ x ≠ 'E' :=
        fun x hx => ⟨(hplain x hx).2.2.1, (hplain x hx).2.2.2⟩
      simpa using parseNumberCore_append_dot _ (c :: t) hdot hec

/-- Counterexample to C6 as literally stated: under the full float
grammar, the point-free token `1e5` with format (1,0) is parsed
unmodified by the code (the insertion step is skipped when
`decimal_digits = 0`), giving 100000, while the spec-worded decoder
forms `1e5.` and fails. -/
theorem parse_coordinate_real_exponent_cex :
    (∃ q : ℚ, (parse_coordinate_real ['1', 'e', '5'] 1 0).toOption =
        some (RustFloat.finite q) ∧ q = 100000) ∧
    decodeSpecReal ['1', 'e', '5'] 1 0 = none ∧
    (parse_coordinate_real ['1', 'e', '5'] 1 0).toOption ≠
      decodeSpecReal ['1', 'e', '5'] 1 0 := by
  have hspec : decodeSpecReal ['1', 'e', '5'] 1 0 = none := rfl
  have hval : (parse_coordinate_real ['1', 'e', '5'] 1 0).toOption =
      some (RustFloat.finite
        (((digitsVal ['1'] : ℚ) + (digitsVal ([] : List Char) : ℚ) / 10 ^ (0 : Nat)) *
          (10 : ℚ) ^ ((digitsVal ['5'] : ℕ) : ℤ))) := rfl
  have d1 : digitsVal ['1'] = 1 := rfl
  have d0 : digitsVal ([] : List Char) = 0 := rfl
  have d5 : digitsVal ['5'] = 5 := rfl
  refine ⟨⟨_, hval, ?_⟩, hspec, ?_⟩
  · rw [d1, d0, d5, zpow_natCast]
    norm_num
  · intro heq
    rw [hval, hspec] at heq
    exact Option.noConfusion heq

/-- C6 (amended): the coordinate decoder behaves exactly as specified
whenever `decimal_digits > 0`; when `decimal_digits = 0` the code skips
the point insertion, which agrees with the specified insertion on every
token free of exponent markers and of inf/nan spellings (and diverges
exactly on those forms); the outcome is a pure function of token and
format. -/
theorem parse_coordinate_real_eq_decodeSpec (coordStr : List Char)
    (integerDigits decimalDigits : Nat) :
    (0 < decimalDigits →
      (parse_coordinate_real coordStr integerDigits decimalDigits).toOption =
        decodeSpecReal coordStr integerDigits decimalDigits) ∧
    (decimalDigits = 0 →
      (∀ c ∈ coordStr,
        Char.toLower c ≠ 'i' ∧ Char.toLower c ≠ 'n' ∧ c ≠ 'e' ∧ c ≠ 'E') →
      (parse_coordinate_real coordStr integerDigits decimalDigits).toOption =
        decodeSpecReal coordStr integerDigits decimalDigits) := by
  constructor
  · intro hd
    by_cases hdotc : coordStr.contains '.' = true
    · simp only [parse_coordinate_real, decodeSpecReal, hdotc, if_true]
      cases hf : rustParseF64Real coordStr <;> simp [Except.toOption]
    · simp only [Bool.not_eq_true] at hdotc
      simp only [parse_coordinate_real, decodeSpecReal, hdotc, Bool.false_eq_true, if_false]
      set isNegative : Bool := decide (coordStr.head? = some '-') with hneg
      set magnitude := if isNegative then coordStr.drop 1 else coordStr with hmag
      set padded :=
        List.replicate (integerDigits + decimalDigits - magnitude.length) '0' ++ magnitude
        with hpad
      rw [if_pos hd]
      cases hf :
          rustParseF64Real
            (if isNegative then
              '-' :: (padded.take (padded.length - decimalDigits) ++
                '.' :: padded.drop (padded.length - decimalDigits))
            else
              padded.take (padded.length - decimalDigits) ++
                '.' :: padded.drop (padded.length - decimalDigits)) <;>
        simp [Except.toOption]
  · intro hdd hplain
    subst hdd
    by_cases hdotc : coordStr.contains '.' = true
    · simp only [parse_coordinate_real, decodeSpecReal, hdotc, if_true]
      cases hf : rustParseF64Real coordStr <;> simp [Except.toOption]
    · simp only [Bool.not_eq_true] at hdotc
      have hmem : '.' ∉ coordStr := by
        intro hm
        rw [show coordStr.contains '.' = coordStr.elem '.' from rfl] at hdotc
        rw [List.elem_eq_true_of_mem hm] at hdotc
        exact Bool.true_eq_false.mp hdotc
      simp only [parse_coordinate_real, decodeSpecReal, hdotc, Bool.false_eq_true, if_false]
      set isNegative : Bool := decide (coordStr.head? = some '-') with hneg
      set magnitude := if isNegative then coordStr.drop 1 else coordStr with hmag
      have hmagSub : ∀ x ∈ magnitude, x ∈ coordStr := by
        rw [hmag]
        rcases isNegative with _ | _
        · exact fun x hx => hx
        · exact fun x hx => (List.drop_sublist 1 coordStr).subset hx
      set padded :=
        List.replicate (integerDigits + 0 - magnitude.length) '0' ++ magnitude
        with hpad
      have hzerofacts :
          Char.toLower '0' ≠ 'i' ∧ Char.toLower '0' ≠ 'n' ∧
            ('0' : Char) ≠ 'e' ∧ ('0' : Char) ≠ 'E' := by decide
      have hpadPlain : ∀ x ∈ padded,
          Char.toLower x ≠ 'i' ∧ Char.toLower x ≠ 'n' ∧ x ≠ 'e' ∧ x ≠ 'E' := by
        rw [hpad]
        intro x hx
        rcases List.mem_append.mp hx with hz | hmg
        · rw [List.eq_of_mem_replicate hz]
          exact hzerofacts
        · exact hplain x (hmagSub x hmg)
      have hpadMem : '.' ∉ padded := by
        rw [hpad]
        intro hm
        rcases List.mem_append.mp hm with hz | hmg
        · exact absurd (List.eq_of_mem_replicate hz) (by decide)
        · exact hmem (hmagSub '.' hmg)
      have htake : padded.take (padded.length - 0) = padded := by
        simp [List.take_length]
      have hdrop : padded.drop (padded.length - 0) = [] := by
        simp [List.drop_length]
      simp only [Nat.lt_irrefl, if_false, htake, hdrop]
      have hsigned :
          (if isNegative then '-' :: (padded ++ ['.']) else padded ++ ['.']) =
            (if isNegative then '-' :: padded else padded) ++ ['.'] := by
        rcases isNegative with _ | _ <;> simp
      have hminusfacts :
          Char.toLower '-' ≠ 'i' ∧ Char.toLower '-' ≠ 'n' ∧
            ('-' : Char) ≠ 'e' ∧ ('-' : Char) ≠ 'E' := by decide
      have hsignedPlain : ∀ x ∈ (if isNegative then '-' :: padded else padded),
          Char.toLower x ≠ 'i' ∧ Char.toLower x ≠ 'n' ∧ x ≠ 'e' ∧ x ≠ 'E' := by
        rcases isNegative with _ | _
        · simpa using hpadPlain
        · intro x hx
          rcases List.mem_cons.mp hx with he | hm2
          · rw [he]
            exact hminusfacts
          · exact hpadPlain x hm2
      have hsignedMem : '.' ∉ (if isNegative then '-' :: padded else padded) := by
        rcases isNegative with _ | _
        · simpa using hpadMem
        · intro hm
          rcases List.mem_cons.mp hm with he | hm2
          · exact absurd he (by decide)
          · exact hpadMem hm2
      rw [hsigned, rustParseF64Real_append_dot _ hsignedMem hsignedPlain]
      cases hf : rustParseF64Real (if isNegative then '-' :: padded else padded) <;>
        simp [Except.toOption]

/-- Witness for C6 (amended), exercising both regimes: format (1,1) on
the token `7`, and format (1,0) on the plain token `12`. -/
theorem parse_coordinate_real_eq_decodeSpec_witness :
    ((0 : Nat) < 1 ∧
      (parse_coordinate_real ['7'] 1 1).toOption = decodeSpecReal ['7'] 1 1) ∧
    ((∀ c ∈ (['1', '2'] : List Char),
        Char.toLower c ≠ 'i' ∧ Char.toLower c ≠ 'n' ∧ c ≠ 'e' ∧ c ≠ 'E') ∧
      (parse_coordinate_real ['1', '2'] 1 0).toOption = decodeSpecReal ['1', '2'] 1 0) :=
  ⟨⟨by decide, (parse_coordinate_real_eq_decodeSpec ['7'] 1 1).1 (by decide)⟩,
   ⟨by decide, (parse_coordinate_real_eq_decodeSpec ['1', '2'] 1 0).2 rfl (by decide)⟩⟩

/-- Length of a flat map that emits two elements per input element. -/
theorem flatMap_pair_length {α β : Type} (l : List α) (f g : α → β) :
    (l.flatMap fun p => [f p, g p]).length = 2 * l.length := by
  induction l with
  | nil => rfl
  | cons a t ih =>
    simp only [List.flatMap_cons, List.cons_append, List.nil_append, List.length_cons, ih,
      List.length_cons]
    omega

/-- Element extraction from a flat map that emits two elements per input
element: even positions give the first emission, odd the second. -/
theorem flatMap_pair_getElem {α β : Type} (l : List α) (f g : α → β) :
    ∀ (k : Nat) (hk : k < l.length),
      (l.flatMap fun p => [f p, g p])[k * 2]? = some (f (l.get ⟨k, hk⟩)) ∧
        (l.flatMap fun p => [f p, g p])[k * 2 + 1]? = some (g (l.get ⟨k, hk⟩)) := by
  induction l with
  | nil => intro k hk; exact absurd hk (by simp)
  | cons a t ih =>
    intro k hk
    cases k with
    | zero =>
      constructor <;> simp [List.flatMap_cons]
    | succ k' =>
      have hk' : k' < t.length := by simpa using hk
      have heven : (k' + 1) * 2 = (k' * 2) + 1 + 1 := by omega
      have hodd : (k' + 1) * 2 + 1 = (k' * 2 + 1) + 1 + 1 := by omega
      constructor
      · rw [heven]
        simpa using (ih k' hk').1
      · rw [hodd]
        simpa using (ih k' hk').2

/-- C1: for every polygon of `N ≥ 3` points and every thickness, the
extrusion step yields exactly `2N` vertices and `N + 2` faces; point `k`
occupies vertex index `2k` as a top vertex (`z` = thickness, normal
`(0,0,1)`) and index `2k+1` as a bottom vertex (`z = 0`, normal
`(0,0,-1)`); the faces are exactly one top face over the even indices in
point order, one bottom face over the odd indices in reverse point
order, and `N` side quads referencing
`(top_k, bottom_k, bottom_(k+1 mod N), top_(k+1 mod N))`. -/
theorem extrudeOutline_shape (outlinePoints : List (Pt ℝ)) (pcbThickness : ℝ)
    (hN : 3 ≤ outlinePoints.length) :
    (extrudeOutline outlinePoints pcbThickness).vertices.length = 2 * outlinePoints.length ∧
    (∀ (k : Nat) (hk : k < outlinePoints.length),
      (extrudeOutline outlinePoints pcbThickness).vertices[k * 2]? =
        some { position := { x := (outlinePoints.get ⟨k, hk⟩).x,
                             y := (outlinePoints.get ⟨k, hk⟩).y,
                             z := pcbThickness },
               normal := { x := 0, y := 0, z := 1 } } ∧
      (extrudeOutline outlinePoints pcbThickness).vertices[k * 2 + 1]? =
        some { position := { x := (outlinePoints.get ⟨k, hk⟩).x,
                             y := (outlinePoints.get ⟨k, hk⟩).y,
                             z := 0 },
               normal := { x := 0, y := 0, z := -1 } }) ∧
    (extrudeOutline outlinePoints pcbThickness).faces =
      ({ vertices := (List.range outlinePoints.length).map fun i => i * 2 } : Face) ::
      ({ vertices :=
          (List.range outlinePoints.length).reverse.map fun i => i * 2 + 1 } : Face) ::
      ((List.range outlinePoints.length).map fun i =>
        ({ vertices := [i * 2, i * 2 + 1, ((i + 1) % outlinePoints.length) * 2 + 1,
                        ((i + 1) % outlinePoints.length) * 2] } : Face)) ∧
    (extrudeOutline outlinePoints pcbThickness).faces.length = outlinePoints.length + 2 := by
  refine ⟨?_, ?_, rfl, ?_⟩
  · exact flatMap_pair_length outlinePoints _ _
  · intro k hk
    exact flatMap_pair_getElem outlinePoints _ _ k hk
  · simp [extrudeOutline]

/-- Witness for C1 at a concrete right triangle of three points and
thickness 2. -/
theorem extrudeOutline_shape_witness :
    3 ≤ ([⟨0, 0⟩, ⟨1, 0⟩, ⟨0, 1⟩] : List (Pt ℝ)).length ∧
      (extrudeOutline ([⟨0, 0⟩, ⟨1, 0⟩, ⟨0, 1⟩] : List (Pt ℝ)) 2).vertices.length =
        2 * ([⟨0, 0⟩, ⟨1, 0⟩, ⟨0, 1⟩] : List (Pt ℝ)).length :=
  ⟨by simp, (extrudeOutline_shape ([⟨0, 0⟩, ⟨1, 0⟩, ⟨0, 1⟩] : List (Pt ℝ)) 2 (by simp)).1⟩

/-- The modelled `atan2` never exceeds π. -/
theorem atan2_le_pi (y x : ℝ) : atan2 y x ≤ Real.pi :=
  Complex.arg_le_pi _

/-- The modelled `atan2` is strictly above -π. -/
theorem neg_pi_lt_atan2 (y x : ℝ) : -Real.pi < atan2 y x :=
  Complex.neg_pi_lt_arg _

/-- The raw angular sweep lies strictly between -2π and 2π. -/
theorem rawArcDelta_bounds (p e off : Pt ℝ) :
    -(2 * Real.pi) < rawArcDelta p e off ∧ rawArcDelta p e off < 2 * Real.pi := by
  unfold rawArcDelta
  constructor
  · have h1 := neg_pi_lt_atan2 (e.y - (arcCenter p off).y) (e.x - (arcCenter p off).x)
    have h2 := atan2_le_pi (p.y - (arcCenter p off).y) (p.x - (arcCenter p off).x)
    linarith
  · have h1 := atan2_le_pi (e.y - (arcCenter p off).y) (e.x - (arcCenter p off).x)
    have h2 := neg_pi_lt_atan2 (p.y - (arcCenter p off).y) (p.x - (arcCenter p off).x)
    linarith

/-- C2: processing an `ArcDraw` while the tracked mode is an arc mode
computes center, radius, start/end angles and raw sweep as specified;
in clockwise mode a full turn is subtracted from a positive sweep
(making it ≤ 0), in counter-clockwise mode a full turn is added to a
negative sweep (making it ≥ 0); exactly 16 points are appended, the k-th
at angle `start_angle + delta * k/16` on the computed circle, and the
current position advances to the end point. -/
theorem outlineStep_arcDraw_arc_modes (st : OutlineState) (e off : Pt ℝ) :
    (st.mode = InterpolationMode.clockwiseCircular →
      (if 0 < rawArcDelta ⟨st.x, st.y⟩ e off then
          rawArcDelta ⟨st.x, st.y⟩ e off - 2 * Real.pi
        else rawArcDelta ⟨st.x, st.y⟩ e off) ≤ 0 ∧
      (specArcTess ⟨st.x, st.y⟩ off
        (if 0 < rawArcDelta ⟨st.x, st.y⟩ e off then
            rawArcDelta ⟨st.x, st.y⟩ e off - 2 * Real.pi
          else rawArcDelta ⟨st.x, st.y⟩ e off)).length = 16 ∧
      outlineStep st (.arcDraw e off) =
        { st with
            points := st.points ++
              specArcTess ⟨st.x, st.y⟩ off
                (if 0 < rawArcDelta ⟨st.x, st.y⟩ e off then
                    rawArcDelta ⟨st.x, st.y⟩ e off - 2 * Real.pi
                  else rawArcDelta ⟨st.x, st.y⟩ e off),
            x := e.x, y := e.y }) ∧
    (st.mode = InterpolationMode.counterClockwiseCircular →
      0 ≤ (if rawArcDelta ⟨st.x, st.y⟩ e off < 0 then
            rawArcDelta ⟨st.x, st.y⟩ e off + 2 * Real.pi
          else rawArcDelta ⟨st.x, st.y⟩ e off) ∧
      (specArcTess ⟨st.x, st.y⟩ off
        (if rawArcDelta ⟨st.x, st.y⟩ e off < 0 then
            rawArcDelta ⟨st.x, st.y⟩ e off + 2 * Real.pi
          else rawArcDelta ⟨st.x, st.y⟩ e off)).length = 16 ∧
      outlineStep st (.arcDraw e off) =
        { st with
            points := st.points ++
              specArcTess ⟨st.x, st.y⟩ off
                (if rawArcDelta ⟨st.x, st.y⟩ e off < 0 then
                    rawArcDelta ⟨st.x, st.y⟩ e off + 2 * Real.pi
                  else rawArcDelta ⟨st.x, st.y⟩ e off),
            x := e.x, y := e.y }) := by
  have hbounds := rawArcDelta_bounds ⟨st.x, st.y⟩ e off
  constructor
  · intro hcw
    refine ⟨?_, by simp [specArcTess], ?_⟩
    · by_cases hr : 0 < rawArcDelta ⟨st.x, st.y⟩ e off
      · rw [if_pos hr]
        linarith [hbounds.2]
      · rw [if_neg hr]
        linarith [not_lt.mp hr]
    · simp only [outlineStep, hcw, specArcTess, rawArcDelta, arcCenter, arcRadius,
        POINTS_PER_ARC]
      norm_num
  · intro hccw
    refine ⟨?_, by simp [specArcTess], ?_⟩
    · by_cases hr : rawArcDelta ⟨st.x, st.y⟩ e off < 0
      · rw [if_pos hr]
        linarith [hbounds.1]
      · rw [if_neg hr]
        linarith [not_lt.mp hr]
    · simp only [outlineStep, hccw, specArcTess, rawArcDelta, arcCenter, arcRadius,
        POINTS_PER_ARC]
      norm_num

/-- Witness for C2 at a concrete clockwise state: the instantiated
hypothesis and the sixteen-point consequence. -/
theorem outlineStep_arcDraw_arc_modes_witness :
    ({ points := [], x := 0, y := 0, mode := .clockwiseCircular,
        startPoint := none } : OutlineState).mode = InterpolationMode.clockwiseCircular ∧
    (specArcTess ⟨0, 0⟩ ⟨1, 0⟩
      (if 0 < rawArcDelta ⟨0, 0⟩ ⟨2, 0⟩ ⟨1, 0⟩ then
          rawArcDelta ⟨0, 0⟩ ⟨2, 0⟩ ⟨1, 0⟩ - 2 * Real.pi
        else rawArcDelta ⟨0, 0⟩ ⟨2, 0⟩ ⟨1, 0⟩)).length = 16 := by
  refine ⟨rfl, ?_⟩
  exact ((outlineStep_arcDraw_arc_modes
    { points := [], x := 0, y := 0, mode := .clockwiseCircular, startPoint := none }
    ⟨2, 0⟩ ⟨1, 0⟩).1 rfl).2.1

/-- C10: processing an `ArcDraw` while the tracked mode is `Linear`
neither fails nor skips: sixteen points are still appended, with the raw
unnormalized sweep, and the position still advances to the end point. -/
theorem outlineStep_arcDraw_linear (st : OutlineState) (e off : Pt ℝ)
    (h : st.mode = InterpolationMode.linear) :
    (specArcTess ⟨st.x, st.y⟩ off (rawArcDelta ⟨st.x, st.y⟩ e off)).length = 16 ∧
    outlineStep st (.arcDraw e off) =
      { st with
          points := st.points ++
            specArcTess ⟨st.x, st.y⟩ off (rawArcDelta ⟨st.x, st.y⟩ e off),
          x := e.x, y := e.y } := by
  refine ⟨by simp [specArcTess], ?_⟩
  simp only [outlineStep, h, specArcTess, rawArcDelta, arcCenter, arcRadius, POINTS_PER_ARC]
  norm_num

/-- Witness for C10 at a concrete linear-mode state. -/
theorem outlineStep_arcDraw_linear_witness :
    ({ points := [], x := 0, y := 0, mode := .linear,
        startPoint := none } : OutlineState).mode = InterpolationMode.linear ∧
    (specArcTess ⟨0, 0⟩ ⟨1, 0⟩ (rawArcDelta ⟨0, 0⟩ ⟨2, 0⟩ ⟨1, 0⟩)).length = 16 := by
  refine ⟨rfl, ?_⟩
  exact (outlineStep_arcDraw_linear
    { points := [], x := 0, y := 0, mode := .linear, startPoint := none }
    ⟨2, 0⟩ ⟨1, 0⟩ rfl).1

/-- Folding arc-free commands grows the outline by exactly one point per
`Move` or `Draw` command. -/
theorem foldl_outlineStep_length (cmds : List (Command ℝ))
    (hA : ∀ c ∈ cmds, isArcDraw c = false) (st : OutlineState) :
    (cmds.foldl outlineStep st).points.length = st.points.length + countMoveDraw cmds := by
  induction cmds generalizing st with
  | nil => simp [countMoveDraw]
  | cons c t ih =>
    have hc : isArcDraw c = false := hA c (List.mem_cons_self c t)
    have ht : ∀ x ∈ t, isArcDraw x = false := fun x hx => hA x (List.mem_cons_of_mem _ hx)
    rw [List.foldl_cons, ih ht (outlineStep st c)]
    cases c
    case arcDraw e o => simp [isArcDraw] at hc
    all_goals
      simp [outlineStep, countMoveDraw, isMoveOrDraw, List.countP_cons]
    all_goals omega

/-- Folding commands sets the start point to the already-captured one,
or else to the point of the first `Move` command. -/
theorem foldl_outlineStep_startPoint (cmds : List (Command ℝ)) (st : OutlineState) :
    (cmds.foldl outlineStep st).startPoint =
      match st.startPoint with
      | some s => some s
      | none => firstMovePt? cmds := by
  induction cmds generalizing st with
  | nil =>
    cases hsp : st.startPoint <;> simp [firstMovePt?, hsp]
  | cons c t ih =>
    rw [List.foldl_cons, ih (outlineStep st c)]
    cases c
    case move p =>
      cases hsp : st.startPoint <;> simp [outlineStep, hsp, firstMovePt?]
    all_goals
      cases hsp : st.startPoint <;>
        simp [outlineStep, hsp, firstMovePt?, List.findSome?_cons]

open Classical in
/-- C5 (amended): for a command sequence with at least one `Move` and no
`ArcDraw`, the outline anchor is the first `Move`'s point, the collected
point count equals the number of `Move`/`Draw` commands, and the closed
polygon has one extra closing point exactly when the anchor differs from
the last accumulated point. -/
theorem build_outline_point_count (cmds : List (Command ℝ)) (a : Pt ℝ)
    (hMove : firstMovePt? cmds = some a)
    (hNoArc : ∀ c ∈ cmds, isArcDraw c = false) :
    (collectOutline cmds).startPoint = some a ∧
    (collectOutline cmds).points.length = countMoveDraw cmds ∧
    ∀ l : Pt ℝ, (collectOutline cmds).points.getLast? = some l →
      (closeOutline (collectOutline cmds)).length =
        countMoveDraw cmds + (if a.x ≠ l.x ∨ a.y ≠ l.y then 1 else 0) := by
  have h1 : (collectOutline cmds).startPoint = some a := by
    unfold collectOutline
    rw [foldl_outlineStep_startPoint]
    simpa [initOutlineState] using hMove
  have h2 : (collectOutline cmds).points.length = countMoveDraw cmds := by
    unfold collectOutline
    rw [foldl_outlineStep_length cmds hNoArc]
    simp [initOutlineState]
  refine ⟨h1, h2, ?_⟩
  intro l hl
  unfold closeOutline
  rw [h1, hl]
  dsimp only
  by_cases hdiff : a.x ≠ l.x ∨ a.y ≠ l.y
  · rw [if_pos hdiff, if_pos hdiff]
    simp [h2]
  · rw [if_neg hdiff, if_neg hdiff]
    simp [h2]

/-- Witness for C5 at the concrete sequence `Move (0,0); Draw (1,0)`:
the anchor differs from the last point, so the closed polygon has
`2 + 1 = 3` points. -/
theorem build_outline_point_count_witness :
    firstMovePt? [Command.move (⟨0, 0⟩ : Pt ℝ), Command.draw ⟨1, 0⟩] = some ⟨0, 0⟩ ∧
    (closeOutline (collectOutline
      [Command.move (⟨0, 0⟩ : Pt ℝ), Command.draw ⟨1, 0⟩])).length = 3 := by
  refine ⟨rfl, ?_⟩
  have h := build_outline_point_count
    [Command.move (⟨0, 0⟩ : Pt ℝ), Command.draw ⟨1, 0⟩] ⟨0, 0⟩ rfl
    (by simp [List.forall_mem_cons, isArcDraw])
  have h3 := h.2.2 ⟨1, 0⟩ rfl
  rw [show countMoveDraw [Command.move (⟨0, 0⟩ : Pt ℝ), Command.draw ⟨1, 0⟩] = 2 from rfl]
    at h3
  rw [if_pos (by norm_num)] at h3
  exact h3

/-- Counterexample to C5 as literally stated: in `Draw (0,0); Move (1,1)`
the first accumulated point `(0,0)` differs from the last `(1,1)`, yet no
closing point is appended (the code compares the anchor, which is the
first `Move`'s point `(1,1)`): the closed polygon has 2 points, not
`2 + 1`. -/
theorem build_outline_point_count_cex :
    countMoveDraw [Command.draw (⟨0, 0⟩ : Pt ℝ), Command.move ⟨1, 1⟩] = 2 ∧
    (collectOutline [Command.draw (⟨0, 0⟩ : Pt ℝ), Command.move ⟨1, 1⟩]).points.head? =
      some ⟨0, 0⟩ ∧
    (collectOutline [Command.draw (⟨0, 0⟩ : Pt ℝ), Command.move ⟨1, 1⟩]).points.getLast? =
      some ⟨1, 1⟩ ∧
    ((0 : ℝ) ≠ 1) ∧
    (closeOutline (collectOutline
      [Command.draw (⟨0, 0⟩ : Pt ℝ), Command.move ⟨1, 1⟩])).length = 2 := by
  refine ⟨rfl, rfl, rfl, by norm_num, ?_⟩
  have hsp : (collectOutline [Command.draw (⟨0, 0⟩ : Pt ℝ), Command.move ⟨1, 1⟩]).startPoint =
      some ⟨1, 1⟩ := rfl
  have hlast : (collectOutline
      [Command.draw (⟨0, 0⟩ : Pt ℝ), Command.move ⟨1, 1⟩]).points.getLast? =
      some ⟨1, 1⟩ := rfl
  unfold closeOutline
  rw [hsp, hlast]
  dsimp only
  rw [if_neg (by norm_num)]
  rfl

/-- C4 (amended): building the edge-cuts mesh fails (and is the only way
it fails) exactly when the closed outline has fewer than 3 points,
counted with multiplicity. -/
theorem build_edge_cuts_error_iff (cmds : List (Command ℝ)) (thickness : Option ℝ) :
    (∃ msg, build_edge_cuts_mesh cmds thickness = .error msg) ↔
      (closeOutline (collectOutline cmds)).length < 3 := by
  unfold build_edge_cuts_mesh
  by_cases h : (closeOutline (collectOutline cmds)).length < 3
  · simp [h]
  · simp [h]

/-- Witness for C4 (amended) at the empty command list: zero points,
hence the error. -/
theorem build_edge_cuts_error_iff_witness :
    (closeOutline (collectOutline ([] : List (Command ℝ)))).length < 3 ∧
    (∃ msg, build_edge_cuts_mesh ([] : List (Command ℝ)) none = .error msg) := by
  have hlen : (closeOutline (collectOutline ([] : List (Command ℝ)))).length < 3 := by
    rw [show closeOutline (collectOutline ([] : List (Command ℝ))) = [] from rfl]
    norm_num
  exact ⟨hlen, (build_edge_cuts_error_iff [] none).mpr hlen⟩

/-- Counterexample to C4 as literally stated: the sequence
`Move (0,0); Draw (0,0); Draw (0,0)` accumulates three copies of a
single distinct point, yet the mesh build succeeds instead of failing
with the too-few-points error. -/
theorem build_edge_cuts_distinct_points_cex :
    (∀ p ∈ closeOutline (collectOutline
        [Command.move (⟨0, 0⟩ : Pt ℝ), Command.draw ⟨0, 0⟩, Command.draw ⟨0, 0⟩]),
      p = (⟨0, 0⟩ : Pt ℝ)) ∧
    (closeOutline (collectOutline
        [Command.move (⟨0, 0⟩ : Pt ℝ), Command.draw ⟨0, 0⟩, Command.draw ⟨0, 0⟩])).length
      = 3 ∧
    (∃ m, build_edge_cuts_mesh
        [Command.move (⟨0, 0⟩ : Pt ℝ), Command.draw ⟨0, 0⟩, Command.draw ⟨0, 0⟩] none =
      .ok m) := by
  have hclose : closeOutline (collectOutline
      [Command.move (⟨0, 0⟩ : Pt ℝ), Command.draw ⟨0, 0⟩, Command.draw ⟨0, 0⟩]) =
      [⟨0, 0⟩, ⟨0, 0⟩, ⟨0, 0⟩] := by
    unfold closeOutline
    rw [show (collectOutline
        [Command.move (⟨0, 0⟩ : Pt ℝ), Command.draw ⟨0, 0⟩, Command.draw ⟨0, 0⟩]).startPoint =
        some ⟨0, 0⟩ from rfl]
    rw [show (collectOutline
        [Command.move (⟨0, 0⟩ : Pt ℝ), Command.draw ⟨0, 0⟩,
          Command.draw ⟨0, 0⟩]).points.getLast? = some ⟨0, 0⟩ from rfl]
    dsimp only
    rw [if_neg (by norm_num)]
    rfl
  refine ⟨?_, ?_, ?_⟩
  · rw [hclose]
    intro p hp
    rcases List.mem_cons.mp hp with h | hp2
    · exact h
    · rcases List.mem_cons.mp hp2 with h | hp3
      · exact h
      · rcases List.mem_cons.mp hp3 with h | hp4
        · exact h
        · exact absurd hp4 (List.not_mem_nil p)
  · rw [hclose]
    rfl
  · unfold build_edge_cuts_mesh
    rw [hclose]
    norm_num

/-- A line whose first character is `D` fails every recognizer that
requires a `%`, `G` or `M` prefix. -/
theorem recognizers_fail_on_D (r : List Char) :
    parse_format_spec ('D' :: r) = none ∧
    parse_units_mm ('D' :: r) = none ∧
    parse_units_inch ('D' :: r) = none ∧
    parse_aperture_definition ('D' :: r) = none ∧
    parse_interpolation_mode ('D' :: r) = none ∧
    parse_begin_region ('D' :: r) = none ∧
    parse_end_region ('D' :: r) = none ∧
    parse_end_of_file ('D' :: r) = none := by
  refine ⟨?_, ?_, ?_, ?_, ?_, ?_, ?_, ?_⟩ <;>
    simp [parse_format_spec, parse_units_mm, parse_units_inch, parse_aperture_definition,
      parse_interpolation_mode, parse_begin_region, parse_end_region, parse_end_of_file,
      stripPre, List.isPrefixOf]

/-- When every earlier recognizer fails, the chain falls through to the
draw-command recognizer. -/
theorem parseGerberLine_eq_draw (st : ParserState) (line : List Char)
    (hfs : parse_format_spec line = none)
    (hmm : parse_units_mm line = none)
    (hin : parse_units_inch line = none)
    (had : parse_aperture_definition line = none)
    (him : parse_interpolation_mode line = none)
    (hbr : parse_begin_region line = none)
    (her : parse_end_region line = none)
    (heof : parse_end_of_file line = none)
    (hsel : parse_aperture_selection line = none) :
    parseGerberLine st line = parse_draw_command line st := by
  simp only [parseGerberLine, hfs, hmm, hin, had, him, hbr, her, heof, hsel]

/-- C8: parsing always succeeds with a (possibly empty) command list,
and a line on which every recognizer fails is skipped without emitting a
command and without aborting the parse. -/
theorem parse_gerber_total_and_skip :
    (∀ content : List Char, ∃ cmds, parse_gerber content = .ok cmds) ∧
    (∀ (st : ParserState) (line : List Char),
      parse_format_spec line = none →
      parse_units_mm line = none →
      parse_units_inch line = none →
      parse_aperture_definition line = none →
      parse_interpolation_mode line = none →
      parse_begin_region line = none →
      parse_end_region line = none →
      parse_end_of_file line = none →
      parse_aperture_selection line = none →
      (parse_draw_command line st).2 = none →
      (parseGerberLine st line).2 = none) := by
  constructor
  · intro content
    exact ⟨_, rfl⟩
  · intro st line h1 h2 h3 h4 h5 h6 h7 h8 h9 h10
    rw [parseGerberLine_eq_draw st line h1 h2 h3 h4 h5 h6 h7 h8 h9]
    exact h10

/-- Witness for C8 at the unrecognizable line `FOO`: no command comes
out, the parse does not abort. -/
theorem parse_gerber_total_and_skip_witness :
    (∃ cmds, parse_gerber ['F', 'O', 'O'] = .ok cmds) ∧
    (parseGerberLine initParserState ['F', 'O', 'O']).2 = none :=
  ⟨parse_gerber_total_and_skip.1 ['F', 'O', 'O'],
   parse_gerber_total_and_skip.2 initParserState ['F', 'O', 'O']
     rfl rfl rfl rfl rfl rfl rfl rfl rfl rfl⟩

/-- C7: a standalone `D`-token of digits followed by `*` is recognized
as an aperture selection when its value is at least 10 (even though the
draw recognizer would also match it, the selection recognizer is tried
first), and falls through to the draw-command recognizer when its value
is below 10. -/
theorem aperture_selection_priority (st : ParserState) (s : List Char)
    (hne : s ≠ [])
    (hdig : ∀ c ∈ s, c.isDigit = true)
    (hlt : digitsVal s < 2 ^ 32) :
    (10 ≤ digitsVal s →
      parseGerberLine st ('D' :: (s ++ ['*'])) =
        (st, some (.selectAperture (digitsVal s)))) ∧
    (digitsVal s < 10 →
      parseGerberLine st ('D' :: (s ++ ['*'])) =
        parse_draw_command ('D' :: (s ++ ['*'])) st) := by
  obtain ⟨h1, h2, h3, h4, h5, h6, h7, h8⟩ := recognizers_fail_on_D (s ++ ['*'])
  have hhead : ('D' :: (s ++ ['*'])).head? = some 'D' := rfl
  have hlast : ('D' :: (s ++ ['*'])).getLast? = some '*' :=
    List.getLast?_concat ('D' :: s)
  have hcode : (('D' :: (s ++ ['*'])).drop 1).take (('D' :: (s ++ ['*'])).length - 2) = s := by
    have hlen : ('D' :: (s ++ ['*'])).length - 2 = s.length := by
      simp [List.length_append]
    rw [hlen, List.drop_one, List.tail_cons, List.take_left]
  have hparse : rustParseU32 s = some (digitsVal s) := by
    have hplus : ¬ s.head? = some '+' := by
      cases s with
      | nil => simp
      | cons c t =>
        have hc : c.isDigit = true := hdig c (List.mem_cons_self c t)
        intro hh
        rw [List.head?_cons, Option.some_inj] at hh
        subst hh
        exact absurd hc (by decide)
    have hall : s.all Char.isDigit = true := List.all_eq_true.mpr hdig
    have hempty : s.isEmpty = false := by
      cases s with
      | nil => exact absurd rfl hne
      | cons c t => rfl
    simp only [rustParseU32, if_neg hplus, hempty, hall, Bool.not_true, Bool.or_false,
      Bool.false_eq_true, if_false, if_pos hlt]
  constructor
  · intro h10
    have hselsome : parse_aperture_selection ('D' :: (s ++ ['*'])) =
        some (.selectAperture (digitsVal s)) := by
      simp only [parse_aperture_selection, hhead, hlast, hcode, hparse]
      simp [h10]
    simp only [parseGerberLine, h1, h2, h3, h4, h5, h6, h7, h8, hselsome]
  · intro hlt10
    have hselnone : parse_aperture_selection ('D' :: (s ++ ['*'])) = none := by
      simp only [parse_aperture_selection, hhead, hlast, hcode, hparse]
      simp
      omega
    exact parseGerberLine_eq_draw st _ h1 h2 h3 h4 h5 h6 h7 h8 hselnone

/-- Witness for C7 at the concrete line `D10*`. -/
theorem aperture_selection_priority_witness :
    (['1', '0'] : List Char) ≠ [] ∧ 10 ≤ digitsVal ['1', '0'] ∧
      parseGerberLine initParserState ('D' :: (['1', '0'] ++ ['*'])) =
        (initParserState, some (.selectAperture (digitsVal ['1', '0']))) := by
  refine ⟨by decide, by decide, ?_⟩
  exact (aperture_selection_priority initParserState ['1', '0'] (by decide)
    (by decide) (by decide)).1 (by decide)

/-- C3: on a `*`-terminated line carrying the D01 operation code, the
draw recognizer emits `ArcDraw` exactly when the tracked interpolation
mode is an arc mode and both I and J decode on that same line, with
end point equal to the updated current position and center offset equal
to the decoded (I, J); otherwise D01 yields `Draw` at the updated
position, a D02 line yields `Move`, and a D03 line yields `Flash`. -/
theorem parse_draw_command_classification (input : List Char) (st : ParserState)
    (hstar : input.getLast? = some '*') :
    (containsSub ['D', '0', '1'] input = true →
      ((∃ e c, (parse_draw_command input st).2 = some (.arcDraw e c)) ↔
        ((st.mode = InterpolationMode.clockwiseCircular ∨
            st.mode = InterpolationMode.counterClockwiseCircular) ∧
          (coordField input 'I' st.integerDigits st.decimalDigits).isSome = true ∧
          (coordField input 'J' st.integerDigits st.decimalDigits).isSome = true)) ∧
      (∀ i j : ℚ,
        (st.mode = InterpolationMode.clockwiseCircular ∨
          st.mode = InterpolationMode.counterClockwiseCircular) →
        coordField input 'I' st.integerDigits st.decimalDigits = some i →
        coordField input 'J' st.integerDigits st.decimalDigits = some j →
        (parse_draw_command input st).2 = some (.arcDraw
          { x := (coordField input 'X' st.integerDigits st.decimalDigits).getD st.x,
            y := (coordField input 'Y' st.integerDigits st.decimalDigits).getD st.y }
          { x := i, y := j })) ∧
      (¬ ((st.mode = InterpolationMode.clockwiseCircular ∨
            st.mode = InterpolationMode.counterClockwiseCircular) ∧
          (coordField input 'I' st.integerDigits st.decimalDigits).isSome = true ∧
          (coordField input 'J' st.integerDigits st.decimalDigits).isSome = true) →
        (parse_draw_command input st).2 = some (.draw
          { x := (coordField input 'X' st.integerDigits st.decimalDigits).getD st.x,
            y := (coordField input 'Y' st.integerDigits st.decimalDigits).getD st.y }))) ∧
    (containsSub ['D', '0', '2'] input = true →
      containsSub ['D', '0', '1'] input = false →
      containsSub ['D', '1'] input = false →
      (parse_draw_command input st).2 = some (.move
        { x := (coordField input 'X' st.integerDigits st.decimalDigits).getD st.x,
          y := (coordField input 'Y' st.integerDigits st.decimalDigits).getD st.y })) ∧
    (containsSub ['D', '0', '3'] input = true →
      containsSub ['D', '0', '1'] input = false →
      containsSub ['D', '1'] input = false →
      containsSub ['D', '0', '2'] input = false →
      containsSub ['D', '2'] input = false →
      (parse_draw_command input st).2 = some (.flash
        { x := (coordField input 'X' st.integerDigits st.decimalDigits).getD st.x,
          y := (coordField input 'Y' st.integerDigits st.decimalDigits).getD st.y })) := by
  refine ⟨?_, ?_, ?_⟩
  · intro hd01
    have hb1 : (containsSub ['D', '0', '1'] input || containsSub ['D', '1'] input) = true := by
      simp [hd01]
    by_cases harc :
        (st.mode = InterpolationMode.clockwiseCircular ∨
          st.mode = InterpolationMode.counterClockwiseCircular) ∧
        (coordField input 'I' st.integerDigits st.decimalDigits).isSome = true ∧
        (coordField input 'J' st.integerDigits st.decimalDigits).isSome = true
    · have hbool :
          ((st.mode matches .clockwiseCircular | .counterClockwiseCircular) &&
            (coordField input 'I' st.integerDigits st.decimalDigits).isSome &&
            (coordField input 'J' st.integerDigits st.decimalDigits).isSome) = true := by
        obtain ⟨hm, hI, hJ⟩ := harc
        rcases hm with hm | hm <;> simp [hm, hI, hJ]
      have heq : (parse_draw_command input st).2 = some (.arcDraw
          { x := (coordField input 'X' st.integerDigits st.decimalDigits).getD st.x,
            y := (coordField input 'Y' st.integerDigits st.decimalDigits).getD st.y }
          { x := (coordField input 'I' st.integerDigits st.decimalDigits).getD 0,
            y := (coordField input 'J' st.integerDigits st.decimalDigits).getD 0 }) := by
        simp only [parse_draw_command]
        rw [if_pos hstar, if_pos hb1, if_pos hbool]
      refine ⟨iff_of_true ⟨_, _, heq⟩ harc, ?_, fun hneg => absurd harc hneg⟩
      intro i j hm hI hJ
      rw [heq, hI, hJ]
      simp
    · have hbool :
          ((st.mode matches .clockwiseCircular | .counterClockwiseCircular) &&
            (coordField input 'I' st.integerDigits st.decimalDigits).isSome &&
            (coordField input 'J' st.integerDigits st.decimalDigits).isSome) = false := by
        by_contra hcon
        apply harc
        have htrue :
            ((st.mode matches .clockwiseCircular | .counterClockwiseCircular) &&
              (coordField input 'I' st.integerDigits st.decimalDigits).isSome &&
              (coordField input 'J' st.integerDigits st.decimalDigits).isSome) = true := by
          cases hB :
              ((st.mode matches .clockwiseCircular | .counterClockwiseCircular) &&
                (coordField input 'I' st.integerDigits st.decimalDigits).isSome &&
                (coordField input 'J' st.integerDigits st.decimalDigits).isSome)
          · exact absurd hB hcon
          · rfl
        simp only [Bool.and_eq_true] at htrue
        obtain ⟨⟨hm, hI⟩, hJ⟩ := htrue
        refine ⟨?_, hI, hJ⟩
        cases hmode : st.mode
        · rw [hmode] at hm
          exact absurd hm (by decide)
        · exact Or.inl rfl
        · exact Or.inr rfl
      have heq : (parse_draw_command input st).2 = some (.draw
          { x := (coordField input 'X' st.integerDigits st.decimalDigits).getD st.x,
            y := (coordField input 'Y' st.integerDigits st.decimalDigits).getD st.y }) := by
        simp only [parse_draw_command]
        rw [if_pos hstar, if_pos hb1]
        rw [hbool]
        simp
      refine ⟨?_, ?_, fun _ => heq⟩
      · rw [heq]
        constructor
        · rintro ⟨e, c, habs⟩
          simp at habs
        · intro hc
          exact absurd hc harc
      · intro i j hm hI hJ
        exact absurd ⟨hm, by rw [hI]; rfl, by rw [hJ]; rfl⟩ harc
  · intro hd02 hnd01 hnd1
    have hb1 : (containsSub ['D', '0', '1'] input || containsSub ['D', '1'] input) = false := by
      simp [hnd01, hnd1]
    have hb2 : (containsSub ['D', '0', '2'] input || containsSub ['D', '2'] input) = true := by
      simp [hd02]
    simp only [parse_draw_command]
    rw [if_pos hstar, hb1]
    simp only [Bool.false_eq_true, if_false]
    rw [hb2]
    simp
  · intro hd03 hnd01 hnd1 hnd02 hnd2
    have hb1 : (containsSub ['D', '0', '1'] input || containsSub ['D', '1'] input) = false := by
      simp [hnd01, hnd1]
    have hb2 : (containsSub ['D', '0', '2'] input || containsSub ['D', '2'] input) = false := by
      simp [hnd02, hnd2]
    have hb3 : (containsSub ['D', '0', '3'] input || containsSub ['D', '3'] input) = true := by
      simp [hd03]
    simp only [parse_draw_command]
    rw [if_pos hstar, hb1]
    simp only [Bool.false_eq_true, if_false]
    rw [hb2]
    simp only [Bool.false_eq_true, if_false]
    rw [hb3]
    simp

/-- Witness for C3 at the concrete arc line `X1Y2I3J4D01*` with format
(1,0) and clockwise mode: an `ArcDraw` with updated end point and the
decoded center offset. -/
theorem parse_draw_command_classification_witness :
    (['X', '1', 'Y', '2', 'I', '3', 'J', '4', 'D', '0', '1', '*'] : List Char).getLast? =
      some '*' ∧
    (parse_draw_command ['X', '1', 'Y', '2', 'I', '3', 'J', '4', 'D', '0', '1', '*']
      { x := 0, y := 0, integerDigits := 1, decimalDigits := 0,
        mode := .clockwiseCircular }).2 =
      some (.arcDraw
        { x := (coordField ['X', '1', 'Y', '2', 'I', '3', 'J', '4', 'D', '0', '1', '*'] 'X'
            1 0).getD 0,
          y := (coordField ['X', '1', 'Y', '2', 'I', '3', 'J', '4', 'D', '0', '1', '*'] 'Y'
            1 0).getD 0 }
        { x := 3, y := 4 }) := by
  refine ⟨rfl, ?_⟩
  exact ((parse_draw_command_classification
    ['X', '1', 'Y', '2', 'I', '3', 'J', '4', 'D', '0', '1', '*']
    { x := 0, y := 0, integerDigits := 1, decimalDigits := 0, mode := .clockwiseCircular }
    rfl).1 rfl).2.1 3 4 (Or.inl rfl) rfl rfl

/-- C9: a `*`-terminated line that decodes an X field but carries no
recognized D operation code is skipped without emitting a command, yet
permanently updates the tracked position; a following `D02*` line that
omits its own coordinates then emits `Move` at the position set by the
skipped line. -/
theorem skipped_line_updates_position (st : ParserState) (l1 : List Char) (v : ℚ)
    (hfs : parse_format_spec l1 = none)
    (hum : parse_units_mm l1 = none)
    (hui : parse_units_inch l1 = none)
    (had : parse_aperture_definition l1 = none)
    (him : parse_interpolation_mode l1 = none)
    (hbr : parse_begin_region l1 = none)
    (her : parse_end_region l1 = none)
    (heof : parse_end_of_file l1 = none)
    (hsel : parse_aperture_selection l1 = none)
    (hstar : l1.getLast? = some '*')
    (hx : coordField l1 'X' st.integerDigits st.decimalDigits = some v)
    (hy : coordField l1 'Y' st.integerDigits st.decimalDigits = none)
    (hd01 : containsSub ['D', '0', '1'] l1 = false)
    (hd1 : containsSub ['D', '1'] l1 = false)
    (hd02 : containsSub ['D', '0', '2'] l1 = false)
    (hd2 : containsSub ['D', '2'] l1 = false)
    (hd03 : containsSub ['D', '0', '3'] l1 = false)
    (hd3 : containsSub ['D', '3'] l1 = false) :
    parseGerberLine st l1 = ({ st with x := v }, none) ∧
    parseGerberLine { st with x := v } ['D', '0', '2', '*'] =
      ({ st with x := v }, some (.move { x := v, y := st.y })) := by
  obtain ⟨sx, sy, sid, sdd, sm⟩ := st
  constructor
  · rw [parseGerberLine_eq_draw _ l1 hfs hum hui had him hbr her heof hsel]
    simp only [parse_draw_command]
    rw [if_pos hstar]
    rw [show (containsSub ['D', '0', '1'] l1 || containsSub ['D', '1'] l1) = false by
      simp [hd01, hd1]]
    simp only [Bool.false_eq_true, if_false]
    rw [show (containsSub ['D', '0', '2'] l1 || containsSub ['D', '2'] l1) = false by
      simp [hd02, hd2]]
    simp only [Bool.false_eq_true, if_false]
    rw [show (containsSub ['D', '0', '3'] l1 || containsSub ['D', '3'] l1) = false by
      simp [hd03, hd3]]
    simp only [Bool.false_eq_true, if_false]
    rw [hx, hy]
    rfl
  · rw [parseGerberLine_eq_draw _ ['D', '0', '2', '*'] rfl rfl rfl rfl rfl rfl rfl rfl rfl]
    simp only [parse_draw_command]
    have hl2star : (['D', '0', '2', '*'] : List Char).getLast? = some '*' := rfl
    rw [if_pos hl2star]
    rfl

/-- Witness for C9 at the concrete skipped line `X1*` (format (1,0))
followed by `D02*`. -/
theorem skipped_line_updates_position_witness :
    coordField ['X', '1', '*'] 'X' 1 0 = some 1 ∧
    parseGerberLine
      { x := 0, y := 0, integerDigits := 1, decimalDigits := 0, mode := .linear }
      ['X', '1', '*'] =
      ({ x := 1, y := 0, integerDigits := 1, decimalDigits := 0, mode := .linear }, none) ∧
    parseGerberLine
      { x := 1, y := 0, integerDigits := 1, decimalDigits := 0, mode := .linear }
      ['D', '0', '2', '*'] =
      ({ x := 1, y := 0, integerDigits := 1, decimalDigits := 0, mode := .linear },
        some (.move { x := 1, y := 0 })) := by
  have h := skipped_line_updates_position
    { x := 0, y := 0, integerDigits := 1, decimalDigits := 0, mode := .linear }
    ['X', '1', '*'] 1 rfl rfl rfl rfl rfl rfl rfl rfl rfl rfl rfl rfl rfl rfl rfl rfl rfl rfl
  exact ⟨rfl, h.1, h.2⟩

end Pcbgen
